import Mathlib

/-!
# Verification of the assistant-run orchestration and citation-resolution core

Shallow embedding of the server core of the chat-interface repository
(`src/server.ts`): citation extraction and deduplication, the file-metadata
cache, the assistant registry, the run-status poll loop, the vector-store
membership index with its TTL cache, the S3 mirror key scheme, and the
citation-content endpoint.

Machine integers of the source are modelled as `Nat` (no arithmetic in the
source overflows), JavaScript strings as Lean `String`, JS `Map`s as
association lists where an insert at the head shadows older entries (the
same observable behaviour as `Map.set`/`Map.get`), and network calls as
explicit oracle parameters together with a count of the calls performed.
Time is wall-clock milliseconds; the only operation that advances the clock
in the model is the fixed 800 ms sleep of the poll loop (network calls are
instantaneous), matching the spec's time-unit abstraction.

All string predicates the source uses (`startsWith`, `endsWith`, `trim`,
`replaceAll`, prefix tests) are implemented on character lists so that every
definition evaluates inside the kernel.
-/

/-! ## JavaScript-style string helpers (character-list based) -/

/-- Boolean prefix test on character lists: `charListPrefixOf pat s` is true
when `pat` is a prefix of `s`. -/
def charListPrefixOf : List Char → List Char → Bool
  | [], _ => true
  | _ :: _, [] => false
  | a :: as, b :: bs => a == b && charListPrefixOf as bs

/-- `pat.isPrefixOfStr s`: string prefix test (models S3 key-prefix matching
and JS `String.startsWith`). -/
def isPrefixOfStr (pat s : String) : Bool :=
  charListPrefixOf pat.data s.data

/-- JS `s.startsWith(pat)`. -/
def jsStartsWith (s pat : String) : Bool :=
  isPrefixOfStr pat s

/-- JS `s.endsWith(pat)`. -/
def jsEndsWith (s pat : String) : Bool :=
  charListPrefixOf pat.data.reverse s.data.reverse

/-- Trim whitespace from both ends of a character list (JS `String.trim`). -/
def trimChars (cs : List Char) : List Char :=
  ((cs.dropWhile Char.isWhitespace).reverse.dropWhile Char.isWhitespace).reverse

/-- JS `s.trim()`. -/
def jsTrim (s : String) : String :=
  String.mk (trimChars s.data)

/-- JS `a || b` on an optional string: `b` when `a` is absent or empty
(the empty string is falsy in JavaScript). -/
def jsOrElse (a : Option String) (b : String) : String :=
  match a with
  | some s => if s = "" then b else s
  | none => b

/-! ## Data model shared by several components -/

/-- Descriptive metadata of an uploaded file (`FileMeta` in the source);
both fields are optional. -/
structure FileMeta where
  filename : Option String
  bytes : Option Nat
deriving DecidableEq

/-- A raw citation pulled out of an assistant message before enrichment:
an uploaded-file id plus an optional quote. -/
structure RawCitation where
  fileId : String
  quote : Option String
deriving DecidableEq

/-- An enriched citation as returned by `extractAssistantCitations`. -/
structure EnrichedCitation where
  fileId : String
  filename : Option String
  bytes : Option Nat
  quote : Option String
deriving DecidableEq

/-- One annotation attached to a text content block of a message.
`file_citation` carries an optional file id and an optional quote,
`file_path` carries only an optional file id; every other annotation type is
represented by `otherType`.  The `Option` on `file_id` models the source's
`typeof ... === 'string'` guards. -/
inductive MsgAnnot where
  | file_citation (file_id : Option String) (quote : Option String)
  | file_path (file_id : Option String)
  | otherType (t : String)
deriving DecidableEq

/-- One content block of an upstream message: a text block with its
annotation list, or a non-text block (skipped by the extractor). -/
inductive MsgContent where
  | text (value : String) (anns : List MsgAnnot)
  | nonText
deriving DecidableEq

/-! ## Citation extraction and deduplication (`extractAssistantCitations`) -/

/-- The annotation scan of `extractAssistantCitations`: every text block's
annotations contribute a raw citation when they are a `file_citation` with a
string `file_id` (keeping the quote when it is a string) or a `file_path`
with a string `file_id`; all other annotations are ignored. -/
def collectRawCitations (content : List MsgContent) : List RawCitation :=
  content.flatMap fun item =>
    match item with
    | .text _ anns =>
        anns.filterMap fun ann =>
          match ann with
          | .file_citation (some fid) q => some ⟨fid, q⟩
          | .file_citation none _ => none
          | .file_path (some fid) => some ⟨fid, none⟩
          | .file_path none => none
          | .otherType _ => none
    | .nonText => []

/-- The dedup key of a raw citation: `` `${c.fileId}::${c.quote ?? ''}` ``. -/
def citeKey (c : RawCitation) : String :=
  c.fileId ++ "::" ++ c.quote.getD ""

/-- The identity pair of a citation as the spec states it. -/
def citePair (c : RawCitation) : String × Option String :=
  (c.fileId, c.quote)

/-- The dedup loop of `extractAssistantCitations`: walk the list keeping a
set (here: list) of seen keys, keeping the first citation of each key. -/
def dedupCitationsGo (seen : List String) : List RawCitation → List RawCitation
  | [] => []
  | c :: rest =>
    if citeKey c ∈ seen then dedupCitationsGo seen rest
    else c :: dedupCitationsGo (citeKey c :: seen) rest

/-- Deduplication by `(fileId, quote)` key, first-seen order preserved. -/
def dedupCitations (cs : List RawCitation) : List RawCitation :=
  dedupCitationsGo [] cs

/-- The enrichment step: attach filename/size from the metadata lookup
(`metaOf` stands for the `getFileMeta` results) to each deduplicated
citation, preserving order. -/
def enrichCitations (metaOf : String → FileMeta) (cs : List RawCitation) :
    List EnrichedCitation :=
  cs.map fun c => ⟨c.fileId, (metaOf c.fileId).filename, (metaOf c.fileId).bytes, c.quote⟩

/-- `extractAssistantCitations`: scan, dedup, enrich. -/
def extractAssistantCitations (metaOf : String → FileMeta) (content : List MsgContent) :
    List EnrichedCitation :=
  enrichCitations metaOf (dedupCitations (collectRawCitations content))

/-! ## Metadata cache (`getFileMeta`) -/

/-- `getFileMeta`: look the file id up in the cache (`Map.get`, modelled by
`List.lookup` on an association list whose head is the latest insert); on a
miss perform one network call (`upstream` is that call's result, `none`
standing for a non-ok response), cache the result — an empty record on
failure — and return it.  The returned `Nat` counts network calls. -/
def getFileMeta (upstream : Option FileMeta) (fileMetaCache : List (String × FileMeta))
    (fileId : String) : FileMeta × List (String × FileMeta) × Nat :=
  match List.lookup fileId fileMetaCache with
  | some cached => (cached, fileMetaCache, 0)
  | none =>
    match upstream with
    | none => (⟨none, none⟩, (fileId, (⟨none, none⟩ : FileMeta)) :: fileMetaCache, 1)
    | some data => (⟨data.filename, data.bytes⟩,
        (fileId, (⟨data.filename, data.bytes⟩ : FileMeta)) :: fileMetaCache, 1)

/-- Run a sequence of `getFileMeta` calls: each trace element is the file id
asked for together with what upstream would answer for that call.  Returns
the per-call results `(fileId, meta, networkCalls)` and the final cache. -/
def runGetFileMetaTrace (fileMetaCache : List (String × FileMeta)) :
    List (String × Option FileMeta) →
    List (String × FileMeta × Nat) × List (String × FileMeta)
  | [] => ([], fileMetaCache)
  | (fid, up) :: rest =>
    let step := getFileMeta up fileMetaCache fid
    let tail := runGetFileMetaTrace step.2.1 rest
    ((fid, step.1, step.2.2) :: tail.1, tail.2)

/-! ## Assistant registry (`getOrCreateAssistantForVectorStore`) -/

/-- `getOrCreateAssistantForVectorStore`: return the memoized assistant id
for the vector store when one is cached (and truthy, i.e. non-empty, per the
JS `if (cached)` test); otherwise perform one creation call
(`createAssistant` is the upstream oracle giving the id a successful
creation returns), memoize it and return it.  The `Nat` counts upstream
creation calls. -/
def getOrCreateAssistantForVectorStore (createAssistant : String → String)
    (registry : List (String × String)) (vectorStoreId : String) :
    String × List (String × String) × Nat :=
  match List.lookup vectorStoreId registry with
  | some cached =>
    if cached ≠ "" then (cached, registry, 0)
    else
      let id := createAssistant vectorStoreId
      (id, (vectorStoreId, id) :: registry, 1)
  | none =>
    let id := createAssistant vectorStoreId
    (id, (vectorStoreId, id) :: registry, 1)

/-! ## Run executor poll loop (`/api/assistants/chat`) -/

/-- One poll's view of the run as reported upstream: the `status` string and
the optional `last_error.message`. -/
structure RunPoll where
  status : String
  lastErrorMessage : Option String
deriving DecidableEq

/-- Outcome of the poll loop, with the number of status calls performed. -/
inductive RunOutcome where
  | completed (statusCalls : Nat)
  | runFailed (reason : String) (statusCalls : Nat)
  | runTimeout (statusCalls : Nat)
deriving DecidableEq

/-- A status on which the poll loop stops. -/
def isTerminalRunStatus (s : String) : Bool :=
  s == "completed" || s == "failed" || s == "cancelled" || s == "expired"

/-- The poll loop body.  `polls n` is what the `n`-th status call (counting
from 0) reports.  In the time-unit model the status calls are instantaneous
and each `sleepMs(800)` advances the clock by 800 ms, so the elapsed time
`Date.now() - start` seen by the budget check after the `n`-th call is
`800 * n`.  Loop order follows the source: check `completed`, then
`failed|cancelled|expired` (reason `last_error?.message || "Run <status>"`),
then the 60 000 ms budget (strict `>`), then sleep and poll again.  `fuel`
only serves Lean's termination checking; the entry point supplies more fuel
than the budget check can ever consume. -/
def pollRunStatusLoop (polls : Nat → RunPoll) : Nat → Nat → RunOutcome
  | 0, n => RunOutcome.runTimeout n
  | fuel + 1, n =>
    let p := polls n
    if p.status = "completed" then RunOutcome.completed (n + 1)
    else if p.status = "failed" ∨ p.status = "cancelled" ∨ p.status = "expired" then
      RunOutcome.runFailed (jsOrElse p.lastErrorMessage ("Run " ++ p.status)) (n + 1)
    else if 800 * n > 60000 then RunOutcome.runTimeout (n + 1)
    else pollRunStatusLoop polls fuel (n + 1)

/-- The executor's polling phase: start the loop at the first status call
with the clock at the run start. -/
def runStatusPolls (polls : Nat → RunPoll) : RunOutcome :=
  pollRunStatusLoop polls 100 0

/-! ## Vector-store membership index (`getVectorStoreFileIdByOpenAIFileId`) -/

/-- One item of a vector-store file listing page: the membership id (`id`)
and the uploaded-file id (`file_id`), each absent when upstream did not send
a string there. -/
structure VsItem where
  id : Option String
  file_id : Option String
deriving DecidableEq

/-- One page of the paginated membership listing. -/
structure VsPage where
  data : List VsItem
  has_more : Bool
deriving DecidableEq

/-- The cached reverse index for one vector store: creation timestamp in
milliseconds plus the map from uploaded-file id to membership id. -/
structure VsCacheEntry where
  createdAtMs : Nat
  byOpenAIFileId : List (String × String)
deriving DecidableEq

/-- The TTL of a membership index, in milliseconds (`ttlMs = 60_000`). -/
def ttlMs : Nat := 60000

/-- Insert one listing page's items into the reverse map, following the
source: the membership id is `item.id` (when a string, else `''`), the
uploaded-file id is `item.file_id` or — when that is empty — the membership
id itself when it starts with `file-`; a pair is inserted only when both ids
are non-empty, and a membership id of `file-` shape is additionally
self-mapped. -/
def insertVsItems (m : List (String × String)) : List VsItem → List (String × String)
  | [] => m
  | item :: rest =>
    let vectorStoreFileId := item.id.getD ""
    let openaiFileIdFromField := item.file_id.getD ""
    let openaiFileId :=
      if openaiFileIdFromField ≠ "" then openaiFileIdFromField
      else if jsStartsWith vectorStoreFileId "file-" then vectorStoreFileId
      else ""
    let m1 :=
      if vectorStoreFileId ≠ "" ∧ openaiFileId ≠ "" then
        let m2 := (openaiFileId, vectorStoreFileId) :: m
        if jsStartsWith vectorStoreFileId "file-" then
          (vectorStoreFileId, vectorStoreFileId) :: m2
        else m2
      else m
    insertVsItems m1 rest

/-- The id of the last item of a page (`items[items.length-1]?.id`),
`''` when absent. -/
def lastItemId (items : List VsItem) : String :=
  match items.getLast? with
  | some it => it.id.getD ""
  | none => ""

/-- The enumeration loop: fetch pages in order (each list element is what
the next fetch returns), accumulate the reverse map, and stop — after
processing the page — when `has_more` is false, the page was empty, or the
pagination cursor (the last item's id) is empty.  The `Nat` counts page
fetches. -/
def enumerateVsPages (m : List (String × String)) :
    List VsPage → List (String × String) × Nat
  | [] => (m, 0)
  | page :: rest =>
    let m1 := insertVsItems m page.data
    if !page.has_more || page.data.isEmpty then (m1, 1)
    else if lastItemId page.data = "" then (m1, 1)
    else
      let tail := enumerateVsPages m1 rest
      (tail.1, tail.2 + 1)

set_option linter.unusedVariables false in
/-- `getVectorStoreFileIdByOpenAIFileId` for one vector store: when a cache
entry exists and is younger than the TTL it is returned as-is — note that
the requested `openaiFileIds` play no part in that decision — otherwise the
membership listing is re-enumerated from the start and the cache entry is
replaced.  Returns the map, the new cache entry for the store, and the
number of listing fetches performed. -/
def getVectorStoreFileIdByOpenAIFileId (openaiFileIds : List String)
    (cached : Option VsCacheEntry) (nowMs : Nat) (pages : List VsPage) :
    List (String × String) × Option VsCacheEntry × Nat :=
  match cached with
  | some c =>
    if nowMs - c.createdAtMs < ttlMs then (c.byOpenAIFileId, some c, 0)
    else
      let e := enumerateVsPages [] pages
      (e.1, some ⟨nowMs, e.1⟩, e.2)
  | none =>
    let e := enumerateVsPages [] pages
    (e.1, some ⟨nowMs, e.1⟩, e.2)

/-- A page list on which the source's enumeration loop visits every page:
every page before the last reports `has_more`, is non-empty and has a
usable pagination cursor, and the loop stops at the last page. -/
def wellFormedPages : List VsPage → Bool
  | [] => false
  | [page] => !page.has_more || page.data.isEmpty
  | page :: rest =>
    page.has_more && !page.data.isEmpty && (lastItemId page.data != "") &&
      wellFormedPages rest

/-! ## S3 mirror key scheme and bulk delete -/

/-- The S3 mirroring configuration (from `getVectorStoreS3ConfigFromEnv`);
only the fields the key scheme uses are modelled, with `prefixStr` standing
for the source's `prefix` field (always `/`-terminated). -/
structure VectorStoreS3Config where
  bucketName : String
  prefixStr : String
  region : String
deriving DecidableEq

/-- `sanitizeS3KeyComponent`: replace every `\` and `/` with `_`, drop NUL
characters, and trim surrounding whitespace. -/
def sanitizeS3KeyComponent (value : String) : String :=
  String.mk (trimChars
    (((value.data.map fun c => if c = '\\' then '_' else c).map
        fun c => if c = '/' then '_' else c).filter
      fun c => c ≠ '\x00'))

/-- `buildVectorStoreRootPrefix`: `prefix + sanitize(storeId) + '/'`. -/
def vectorStoreRootPrefixOf (config : VectorStoreS3Config) (vectorStoreId : String) :
    String :=
  config.prefixStr ++ sanitizeS3KeyComponent vectorStoreId ++ "/"

/-- `buildVectorStoreFilePrefix`:
`root(storeId) + 'files/' + sanitize(membershipId) + '/'`. -/
def vectorStoreFilePrefixOf (config : VectorStoreS3Config) (vectorStoreId : String)
    (vectorStoreFileId : String) : String :=
  vectorStoreRootPrefixOf config vectorStoreId ++ "files/" ++
    sanitizeS3KeyComponent vectorStoreFileId ++ "/"

/-- The final key component of a mirrored object:
`sanitizeS3KeyComponent(file.originalname) || 'file'`. -/
def mirrorFilename (originalname : String) : String :=
  if sanitizeS3KeyComponent originalname = "" then "file"
  else sanitizeS3KeyComponent originalname

/-- The key a mirrored upload is written under (upload handler of
`/api/vector-stores/:id/files`). -/
def mirrorObjectKey (config : VectorStoreS3Config) (vectorStoreId : String)
    (vectorStoreFileId : String) (originalname : String) : String :=
  vectorStoreFilePrefixOf config vectorStoreId vectorStoreFileId ++
    mirrorFilename originalname

/-- The key formula exactly as claim C9 states it (no fallback for a
filename that sanitizes to the empty string); kept for comparison with
`mirrorObjectKey`, which embeds the source. -/
def claimedMirrorObjectKey (config : VectorStoreS3Config) (vectorStoreId : String)
    (vectorStoreFileId : String) (originalname : String) : String :=
  config.prefixStr ++ sanitizeS3KeyComponent vectorStoreId ++ "/files/" ++
    sanitizeS3KeyComponent vectorStoreFileId ++ "/" ++
    sanitizeS3KeyComponent originalname

/-- The S3 collaborator's `DeleteObjects`: remove the listed keys. -/
def s3DeleteObjects (store : List String) (keys : List String) : List String :=
  store.filter fun k => !(keys.contains k)

/-- `deleteAllObjectsUnderPrefix`: list up to 1000 keys under the prefix
(`ListObjectsV2` returns only keys the prefix matches, `IsTruncated` when
more remain), bulk-delete the listed page when non-empty, and continue while
the listing was truncated.  The S3 store is modelled as the list of its
keys; re-listing after the delete is observationally the same as following
the continuation token, since the token points past the deleted page. -/
def deleteAllObjectsUnder (store : List String) (pre : String) : List String :=
  if 1000 < (store.filter fun k => isPrefixOfStr pre k).length then
    deleteAllObjectsUnder
      (s3DeleteObjects store ((store.filter fun k => isPrefixOfStr pre k).take 1000)) pre
  else if ((store.filter fun k => isPrefixOfStr pre k).take 1000).isEmpty then store
  else s3DeleteObjects store ((store.filter fun k => isPrefixOfStr pre k).take 1000)
termination_by (store.filter fun k => isPrefixOfStr pre k).length
decreasing_by
  rename_i hlt
  have hMne : (store.filter fun k => isPrefixOfStr pre k) ≠ [] := by
    intro h
    rw [h] at hlt
    simp at hlt
  have hkeysne : (store.filter fun k => isPrefixOfStr pre k).take 1000 ≠ [] := by
    intro h
    rcases List.take_eq_nil_iff.mp h with h' | h'
    · exact absurd h' (by omega)
    · exact hMne h'
  obtain ⟨x, hx⟩ := List.exists_mem_of_ne_nil _ hkeysne
  have hxM : x ∈ store.filter fun k => isPrefixOfStr pre k :=
    (List.take_sublist 1000 _).subset hx
  simp only [s3DeleteObjects]
  rw [List.filter_comm]
  exact List.length_filter_lt_length_iff_exists.mpr ⟨x, hxM, by simp [hx]⟩

/-! ## Citation-content endpoint (`/api/vector-stores/:id/files/:fileId/content`) -/

/-- The endpoint's outcome: an HTTP 500 server/config error, a 400 bad
request, a 404 not-found, or success streaming the object at the key. -/
inductive ContentResult where
  | serverError (message : String)
  | badRequest (message : String)
  | notFound (message : String)
  | ok (objectKey : String)
deriving DecidableEq

/-- Whether a result is the endpoint's NotFound-class (HTTP 404) error. -/
def ContentResult.isNotFoundError : ContentResult → Bool
  | .notFound _ => true
  | _ => false

/-- `findFirstObjectKey`: list at most 10 keys under the prefix, keep the
non-empty ones, and return the first that is not a directory marker
(ending in `/`), or `''`. -/
def findFirstObjectKey (store : List String) (pre : String) : String :=
  ((((store.filter fun k => isPrefixOfStr pre k).take 10).filter
      fun k => k ≠ "").find? fun k => !jsEndsWith k "/").getD ""

/-- `fetchCitationSource` (the citation-content endpoint) up to the point
where the object key is resolved: require the mirror configuration, trim and
validate the two path parameters, resolve an uploaded-file-shaped id
(`file-…`) to a membership id through
`getVectorStoreFileIdByOpenAIFileId` (requiring an API key), then return the
first non-directory object under the membership prefix — falling back to the
prefix of the raw parameter when resolution changed it — or a 404 when no
object is found.  `store` is the list of keys in the mirror bucket. -/
def fetchCitationSource (s3Config : Option VectorStoreS3Config) (apiKey : Option String)
    (idParam fileIdParam : String) (cached : Option VsCacheEntry) (nowMs : Nat)
    (pages : List VsPage) (store : List String) : ContentResult :=
  match s3Config with
  | none => ContentResult.serverError "S3 mirroring is not configured"
  | some config =>
    let vectorStoreId := jsTrim idParam
    let fileIdOrVectorStoreFileId := jsTrim fileIdParam
    if vectorStoreId = "" ∨ fileIdOrVectorStoreFileId = "" then
      ContentResult.badRequest "Missing vectorStoreId or vectorStoreFileId"
    else
      let resolvedStep : Option String :=
        if jsStartsWith fileIdOrVectorStoreFileId "file-" then
          match apiKey with
          | none => none
          | some _ =>
            let map :=
              (getVectorStoreFileIdByOpenAIFileId [fileIdOrVectorStoreFileId]
                cached nowMs pages).1
            let resolved := (List.lookup fileIdOrVectorStoreFileId map).getD ""
            some (if resolved ≠ "" then resolved else fileIdOrVectorStoreFileId)
        else some fileIdOrVectorStoreFileId
      match resolvedStep with
      | none => ContentResult.serverError "OpenAI API key not configured"
      | some vectorStoreFileId =>
        let primary := vectorStoreFilePrefixOf config vectorStoreId vectorStoreFileId
        let objectKey :=
          if findFirstObjectKey store primary ≠ "" then findFirstObjectKey store primary
          else if vectorStoreFileId = fileIdOrVectorStoreFileId then ""
          else findFirstObjectKey store
            (vectorStoreFilePrefixOf config vectorStoreId fileIdOrVectorStoreFileId)
        if objectKey = "" then
          ContentResult.notFound "Source not found in S3 mirror for this vector store file"
        else ContentResult.ok objectKey

/-! ## Lemmas about citation deduplication -/

theorem dedupCitationsGo_sublist (seen : List String) (l : List RawCitation) :
    List.Sublist (dedupCitationsGo seen l) l := by
  induction l generalizing seen with
  | nil => simp [dedupCitationsGo]
  | cons c rest ih =>
    simp only [dedupCitationsGo]
    split
    · exact (ih seen).cons c
    · exact (ih _).cons₂ c

theorem dedupCitationsGo_keys (seen : List String) (l : List RawCitation) :
    ((dedupCitationsGo seen l).map citeKey).Nodup ∧
      ∀ k ∈ (dedupCitationsGo seen l).map citeKey, k ∉ seen := by
  induction l generalizing seen with
  | nil => simp [dedupCitationsGo]
  | cons c rest ih =>
    simp only [dedupCitationsGo]
    split
    · exact ih seen
    · rename_i hnot
      obtain ⟨h1, h2⟩ := ih (citeKey c :: seen)
      refine ⟨?_, ?_⟩
      · simp only [List.map_cons, List.nodup_cons]
        exact ⟨fun hmem => (h2 _ hmem) (List.mem_cons_self _ _), h1⟩
      · intro k hk
        simp only [List.map_cons, List.mem_cons] at hk
        rcases hk with rfl | hk
        · exact hnot
        · exact fun hs => (h2 k hk) (List.mem_cons_of_mem _ hs)

theorem dedupCitationsGo_first (l : List RawCitation) :
    ∀ (seen : List String) (c : RawCitation), c ∈ dedupCitationsGo seen l →
      citeKey c ∉ seen ∧ l.find? (fun d => citeKey d == citeKey c) = some c := by
  induction l with
  | nil =>
    intro seen c h
    simp [dedupCitationsGo] at h
  | cons a rest ih =>
    intro seen c h
    simp only [dedupCitationsGo] at h
    split at h
    · rename_i hin
      obtain ⟨hns, hfind⟩ := ih seen c h
      have hne : (citeKey a == citeKey c) = false := by
        rw [beq_eq_false_iff_ne]
        intro he
        exact hns (he ▸ hin)
      exact ⟨hns, by simp [List.find?_cons, hne, hfind]⟩
    · rename_i hnot
      rcases List.mem_cons.mp h with rfl | hmem
      · exact ⟨hnot, by simp [List.find?_cons]⟩
      · obtain ⟨hns, hfind⟩ := ih (citeKey a :: seen) c hmem
        have hne : (citeKey a == citeKey c) = false := by
          rw [beq_eq_false_iff_ne]
          intro he
          exact hns (he ▸ List.mem_cons_self _ _)
        refine ⟨fun hs => hns (List.mem_cons_of_mem _ hs), ?_⟩
        simp [List.find?_cons, hne, hfind]

theorem map_citeKey_eq_map_citePair (l : List RawCitation) :
    l.map citeKey = (l.map citePair).map fun p => p.1 ++ "::" ++ p.2.getD "" := by
  rw [List.map_map]
  rfl

theorem dedupCitations_pairs_nodup (l : List RawCitation) :
    ((dedupCitations l).map citePair).Nodup := by
  have hkeys := (dedupCitationsGo_keys [] l).1
  rw [map_citeKey_eq_map_citePair] at hkeys
  exact List.Nodup.of_map _ hkeys

theorem dedupCitations_length_le (l : List RawCitation) :
    (dedupCitations l).length ≤ ((l.map citePair).dedup).length := by
  have hnd : ((dedupCitations l).map citePair).Nodup := dedupCitations_pairs_nodup l
  have hsub : (dedupCitations l).map citePair ⊆ (l.map citePair).dedup := by
    intro p hp
    rw [List.mem_dedup]
    exact ((dedupCitationsGo_sublist [] l).map citePair).subset hp
  have := (List.Nodup.subperm hnd hsub).length_le
  simpa using this

/-- C4: for every assistant message, the resolved citation output has at
most as many citations as there are distinct `(fileId, quote)` pairs among
the raw citations extracted from the message, the output's `(fileId, quote)`
pairs are pairwise distinct (each pair appears at most once), and the output
lists the pairs in input order, each kept citation being the first raw
citation carrying its dedup key. -/
theorem extractAssistantCitations_dedup_law (metaOf : String → FileMeta)
    (content : List MsgContent) :
    (extractAssistantCitations metaOf content).length ≤
      (((collectRawCitations content).map citePair).dedup).length ∧
    ((extractAssistantCitations metaOf content).map fun e => (e.fileId, e.quote)).Nodup ∧
    List.Sublist
      ((extractAssistantCitations metaOf content).map fun e => (e.fileId, e.quote))
      ((collectRawCitations content).map citePair) ∧
    ((dedupCitations (collectRawCitations content)).all fun c =>
      (collectRawCitations content).find? (fun d => citeKey d == citeKey c) == some c) =
      true := by
  have hpairs : (extractAssistantCitations metaOf content).map (fun e => (e.fileId, e.quote)) =
      (dedupCitations (collectRawCitations content)).map citePair := by
    simp only [extractAssistantCitations, enrichCitations, List.map_map]
    rfl
  refine ⟨?_, ?_, ?_, ?_⟩
  · have hlen : (extractAssistantCitations metaOf content).length =
        (dedupCitations (collectRawCitations content)).length := by
      simp [extractAssistantCitations, enrichCitations]
    rw [hlen]
    exact dedupCitations_length_le _
  · rw [hpairs]
    exact dedupCitations_pairs_nodup _
  · rw [hpairs]
    exact (dedupCitationsGo_sublist [] _).map citePair
  · rw [List.all_eq_true]
    intro c hc
    have := (dedupCitationsGo_first _ [] c hc).2
    simp [this]

/-- A message carrying, for the same file, both a `file_citation` whose
quote is the empty string and a `file_path` annotation (which has no
quote). -/
def emptyQuoteMsgContent : List MsgContent :=
  [MsgContent.text "see the file"
    [MsgAnnot.file_citation (some "file_9") (some ""),
     MsgAnnot.file_path (some "file_9")]]

/-- C10: an empty-string-quoted `file_citation` and a quoteless `file_path`
for the same file id produce the identical dedup key `fileId::`, so the two
raw citations — which differ in the presence of a quote — are merged into a
single citation. -/
theorem emptyQuote_filePath_merge :
    collectRawCitations emptyQuoteMsgContent =
      [⟨"file_9", some ""⟩, ⟨"file_9", none⟩] ∧
    citeKey ⟨"file_9", some ""⟩ = citeKey ⟨"file_9", none⟩ ∧
    (⟨"file_9", some ""⟩ : RawCitation) ≠ ⟨"file_9", none⟩ ∧
    dedupCitations (collectRawCitations emptyQuoteMsgContent) =
      [⟨"file_9", some ""⟩] := by
  refine ⟨by decide, by decide, by decide, by decide⟩

/-! ## Lemmas about the metadata cache -/

theorem runGetFileMetaTrace_cached (trace : List (String × Option FileMeta)) :
    ∀ (cache : List (String × FileMeta)) (fileId : String) (meta : FileMeta),
      List.lookup fileId cache = some meta →
      (∀ r ∈ (runGetFileMetaTrace cache trace).1, r.1 = fileId → r.2 = (meta, 0)) ∧
      List.lookup fileId (runGetFileMetaTrace cache trace).2 = some meta := by
  induction trace with
  | nil =>
    intro cache fileId meta h
    exact ⟨by simp [runGetFileMetaTrace], by simpa [runGetFileMetaTrace] using h⟩
  | cons e rest ih =>
    intro cache fileId meta h
    obtain ⟨fid, up⟩ := e
    cases hl : List.lookup fid cache with
    | some m =>
      have hstep : getFileMeta up cache fid = (m, cache, 0) := by
        simp [getFileMeta, hl]
      simp only [runGetFileMetaTrace, hstep]
      obtain ⟨ih1, ih2⟩ := ih cache fileId meta h
      refine ⟨?_, ih2⟩
      intro r hr hrid
      rcases List.mem_cons.mp hr with rfl | hmem
      · simp only at hrid
        subst hrid
        rw [h] at hl
        simp only
        exact congrArg (fun x => (x, 0)) (Option.some.inj hl).symm
      · exact ih1 r hmem hrid
    | none =>
      have hne : fid ≠ fileId := by
        intro he
        rw [he, h] at hl
        exact Option.noConfusion hl
      have hbeq : (fileId == fid) = false := by
        rw [beq_eq_false_iff_ne]
        exact fun he => hne he.symm
      cases up with
      | none =>
        have hstep : getFileMeta none cache fid =
            (⟨none, none⟩, (fid, (⟨none, none⟩ : FileMeta)) :: cache, 1) := by
          simp [getFileMeta, hl]
        simp only [runGetFileMetaTrace, hstep]
        have h' : List.lookup fileId ((fid, (⟨none, none⟩ : FileMeta)) :: cache) = some meta := by
          simp [List.lookup, hbeq, h]
        obtain ⟨ih1, ih2⟩ := ih _ fileId meta h'
        refine ⟨?_, ih2⟩
        intro r hr hrid
        rcases List.mem_cons.mp hr with rfl | hmem
        · exact absurd hrid hne
        · exact ih1 r hmem hrid
      | some d =>
        have hstep : getFileMeta (some d) cache fid =
            (⟨d.filename, d.bytes⟩, (fid, (⟨d.filename, d.bytes⟩ : FileMeta)) :: cache, 1) := by
          simp [getFileMeta, hl]
        simp only [runGetFileMetaTrace, hstep]
        have h' : List.lookup fileId ((fid, (⟨d.filename, d.bytes⟩ : FileMeta)) :: cache) =
            some meta := by
          simp [List.lookup, hbeq, h]
        obtain ⟨ih1, ih2⟩ := ih _ fileId meta h'
        refine ⟨?_, ih2⟩
        intro r hr hrid
        rcases List.mem_cons.mp hr with rfl | hmem
        · exact absurd hrid hne
        · exact ih1 r hmem hrid

/-- C7: a metadata lookup whose upstream call fails caches and returns the
empty record instead of raising, and afterwards every `getFileMeta` call for
that file id — whatever the interleaved calls and whatever upstream would
now answer — is served from the cache with zero network calls. -/
theorem getFileMeta_negative_caching (fileId : String) (cache : List (String × FileMeta))
    (trace : List (String × Option FileMeta))
    (h : List.lookup fileId cache = none) :
    getFileMeta none cache fileId =
      (⟨none, none⟩, (fileId, (⟨none, none⟩ : FileMeta)) :: cache, 1) ∧
    ((runGetFileMetaTrace ((fileId, (⟨none, none⟩ : FileMeta)) :: cache) trace).1.all
      fun r => !(r.1 == fileId) || decide (r.2 = ((⟨none, none⟩ : FileMeta), 0))) = true ∧
    List.lookup fileId
        (runGetFileMetaTrace ((fileId, (⟨none, none⟩ : FileMeta)) :: cache) trace).2 =
      some ⟨none, none⟩ := by
  have hstep : getFileMeta none cache fileId =
      (⟨none, none⟩, (fileId, (⟨none, none⟩ : FileMeta)) :: cache, 1) := by
    simp [getFileMeta, h]
  have hlook : List.lookup fileId ((fileId, (⟨none, none⟩ : FileMeta)) :: cache) =
      some ⟨none, none⟩ := by
    simp [List.lookup]
  have htr := runGetFileMetaTrace_cached trace _ fileId ⟨none, none⟩ hlook
  refine ⟨hstep, ?_, htr.2⟩
  rw [List.all_eq_true]
  intro r hr
  by_cases hfid : r.1 = fileId
  · have := htr.1 r hr hfid
    simp [this, hfid]
  · simp [hfid]

/-- Witness for C7 at a concrete input: after the failed lookup for
`file_404`, a trace that asks for it again (with upstream now healthy),
asks for another file, and asks a third time, always gets the cached empty
record with zero network calls. -/
theorem getFileMeta_negative_caching_witness :
    List.lookup "file_404" ([] : List (String × FileMeta)) = none ∧
    (getFileMeta none [] "file_404" =
      (⟨none, none⟩, [("file_404", (⟨none, none⟩ : FileMeta))], 1) ∧
    ((runGetFileMetaTrace [("file_404", (⟨none, none⟩ : FileMeta))]
        [("file_404", some ⟨some "doc.pdf", some 5⟩), ("file_2", none),
         ("file_404", none)]).1.all
      fun r => !(r.1 == "file_404") || decide (r.2 = ((⟨none, none⟩ : FileMeta), 0))) = true ∧
    List.lookup "file_404"
        (runGetFileMetaTrace [("file_404", (⟨none, none⟩ : FileMeta))]
          [("file_404", some ⟨some "doc.pdf", some 5⟩), ("file_2", none),
           ("file_404", none)]).2 =
      some ⟨none, none⟩) :=
  ⟨rfl, getFileMeta_negative_caching "file_404" [] _ rfl⟩

/-- C5: with no entry for the collection in the registry, the first
`getOrCreateAssistantForVectorStore` call performs exactly one upstream
creation call and memoizes the created id; the second call for the same
collection returns the memoized id with zero upstream calls and leaves the
registry unchanged. -/
theorem getOrCreateAssistantForVectorStore_idempotent (createAssistant : String → String)
    (registry : List (String × String)) (vectorStoreId : String)
    (h1 : List.lookup vectorStoreId registry = none)
    (h2 : createAssistant vectorStoreId ≠ "") :
    getOrCreateAssistantForVectorStore createAssistant registry vectorStoreId =
      (createAssistant vectorStoreId,
        (vectorStoreId, createAssistant vectorStoreId) :: registry, 1) ∧
    getOrCreateAssistantForVectorStore createAssistant
        ((vectorStoreId, createAssistant vectorStoreId) :: registry) vectorStoreId =
      (createAssistant vectorStoreId,
        (vectorStoreId, createAssistant vectorStoreId) :: registry, 0) := by
  constructor
  · simp [getOrCreateAssistantForVectorStore, h1]
  · simp [getOrCreateAssistantForVectorStore, List.lookup, h2]

/-- Witness for C5 at a concrete input. -/
theorem getOrCreateAssistantForVectorStore_idempotent_witness :
    List.lookup "vs_1" ([] : List (String × String)) = none ∧
    ("asst_1" : String) ≠ "" ∧
    (getOrCreateAssistantForVectorStore (fun _ => "asst_1") [] "vs_1" =
      ("asst_1", [("vs_1", "asst_1")], 1) ∧
    getOrCreateAssistantForVectorStore (fun _ => "asst_1") [("vs_1", "asst_1")] "vs_1" =
      ("asst_1", [("vs_1", "asst_1")], 0)) :=
  ⟨rfl, by decide,
    getOrCreateAssistantForVectorStore_idempotent (fun _ => "asst_1") [] "vs_1" rfl (by decide)⟩

/-! ## Lemmas about the poll loop -/

theorem pollRunStatusLoop_timeout (polls : Nat → RunPoll) :
    ∀ (fuel n : Nat), (∀ k, isTerminalRunStatus (polls k).status = false) →
      n ≤ 76 → 77 ≤ n + fuel →
      pollRunStatusLoop polls fuel n = RunOutcome.runTimeout 77 := by
  intro fuel
  induction fuel with
  | zero =>
    intro n h hn hf
    omega
  | succ fuel ih =>
    intro n h hn hf
    have h' := h n
    have hc : ¬ (polls n).status = "completed" := fun he => by
      simp [isTerminalRunStatus, he] at h'
    have hf3 : ¬ ((polls n).status = "failed" ∨ (polls n).status = "cancelled" ∨
        (polls n).status = "expired") := by
      rintro (he | he | he) <;> simp [isTerminalRunStatus, he] at h'
    simp only [pollRunStatusLoop]
    rw [if_neg hc, if_neg hf3]
    by_cases h76 : n = 76
    · subst h76
      rw [if_pos (by omega)]
    · rw [if_neg (by omega)]
      exact ih (n + 1) h (by omega) (by omega)

theorem pollRunStatusLoop_completed (polls : Nat → RunPoll) (N : Nat) :
    ∀ (fuel n : Nat), (∀ k, k < N → (polls k).status = "in_progress") →
      (polls N).status = "completed" → N ≤ 76 → n ≤ N → N + 1 ≤ n + fuel →
      pollRunStatusLoop polls fuel n = RunOutcome.completed (N + 1) := by
  intro fuel
  induction fuel with
  | zero =>
    intro n h hN h76 hn hf
    omega
  | succ fuel ih =>
    intro n h hN h76 hn hf
    simp only [pollRunStatusLoop]
    by_cases hEq : n = N
    · subst hEq
      rw [if_pos hN]
    · have hlt : n < N := by omega
      have hst := h n hlt
      rw [if_neg (by rw [hst]; decide)]
      rw [if_neg (by rw [hst]; decide)]
      rw [if_neg (by omega)]
      exact ih (n + 1) h hN h76 (by omega) (by omega)

theorem pollRunStatusLoop_failure (polls : Nat → RunPoll) (N : Nat) :
    ∀ (fuel n : Nat), (∀ k, k < N → isTerminalRunStatus (polls k).status = false) →
      ((polls N).status = "failed" ∨ (polls N).status = "cancelled" ∨
        (polls N).status = "expired") →
      N ≤ 76 → n ≤ N → N + 1 ≤ n + fuel →
      pollRunStatusLoop polls fuel n =
        RunOutcome.runFailed
          (jsOrElse (polls N).lastErrorMessage ("Run " ++ (polls N).status)) (N + 1) := by
  intro fuel
  induction fuel with
  | zero =>
    intro n h hterm h76 hn hf
    omega
  | succ fuel ih =>
    intro n h hterm h76 hn hf
    simp only [pollRunStatusLoop]
    by_cases hEq : n = N
    · subst hEq
      have hc : ¬ (polls n).status = "completed" := by
        rcases hterm with he | he | he <;> rw [he] <;> decide
      rw [if_neg hc, if_pos hterm]
    · have hlt : n < N := by omega
      have h' := h n hlt
      have hc : ¬ (polls n).status = "completed" := fun he => by
        simp [isTerminalRunStatus, he] at h'
      have hf3 : ¬ ((polls n).status = "failed" ∨ (polls n).status = "cancelled" ∨
          (polls n).status = "expired") := by
        rintro (he | he | he) <;> simp [isTerminalRunStatus, he] at h'
      rw [if_neg hc, if_neg hf3, if_neg (by omega)]
      exact ih (n + 1) (fun k hk => h k hk) hterm h76 (by omega) (by omega)

/-- A run whose polled status is never terminal. -/
def pollsAlwaysInProgress : Nat → RunPoll :=
  fun _ => ⟨"in_progress", none⟩

/-- A run that reports `in_progress` for 2 polls and then `completed`. -/
def pollsCompleteAfterTwo : Nat → RunPoll :=
  fun k => if k < 2 then ⟨"in_progress", none⟩ else ⟨"completed", none⟩

/-- A run that reports `failed` with a present-but-empty upstream error
message. -/
def pollsFailEmptyMessage : Nat → RunPoll :=
  fun _ => ⟨"failed", some ""⟩

/-- A run that reports `cancelled` with upstream message
`rate_limit_exceeded`. -/
def pollsCancelledRateLimit : Nat → RunPoll :=
  fun _ => ⟨"cancelled", some "rate_limit_exceeded"⟩

/-- Counterexample to C1: under the claim's own time model (polls
instantaneous, one fixed 800 ms delay between consecutive polls), a run
that is never terminal is timed out only after 77 status calls, exceeding
the claimed bound of `⌈60000/800⌉ + 1 = 76` — the budget check
`Date.now() - start > maxWaitMs` is strict, so the poll at elapsed time
exactly 60 000 ms still proceeds. -/
theorem runStatusPolls_timeout_count_counterexample :
    runStatusPolls pollsAlwaysInProgress = RunOutcome.runTimeout 77 ∧
    ¬ (77 ≤ 76) ∧ 77 = 60000 / 800 + 2 :=
  ⟨by decide, by decide, by decide⟩

/-- C1 (amended): a run reporting `in_progress` for `N ≤ 76` polls and then
`completed` makes the executor perform exactly `N + 1` status calls and
proceed to reply extraction, and a run that never reaches a terminal status
is stopped with `RunTimeout` after exactly `⌈60000/800⌉ + 2 = 77` status
calls, with one fixed 800 ms delay between consecutive polls. -/
theorem runStatusPolls_poll_termination (pollsA pollsB : Nat → RunPoll) (N : Nat)
    (hN : N ≤ 76)
    (hA1 : ∀ k, k < N → (pollsA k).status = "in_progress")
    (hA2 : (pollsA N).status = "completed")
    (hB : ∀ k, isTerminalRunStatus ((pollsB k).status) = false) :
    runStatusPolls pollsA = RunOutcome.completed (N + 1) ∧
    runStatusPolls pollsB = RunOutcome.runTimeout 77 :=
  ⟨pollRunStatusLoop_completed pollsA N 100 0 hA1 hA2 hN (by omega) (by omega),
   pollRunStatusLoop_timeout pollsB 100 0 hB (by omega) (by omega)⟩

/-- Witness for C1 (amended) at `N = 2` and at the never-terminal run. -/
theorem runStatusPolls_poll_termination_witness :
    runStatusPolls pollsCompleteAfterTwo = RunOutcome.completed 3 ∧
    runStatusPolls pollsAlwaysInProgress = RunOutcome.runTimeout 77 :=
  runStatusPolls_poll_termination pollsCompleteAfterTwo pollsAlwaysInProgress 2
    (by omega)
    (fun k hk => by
      have hk2 : k = 0 ∨ k = 1 := by omega
      rcases hk2 with rfl | rfl <;> rfl)
    rfl
    (fun _ => rfl)

/-- Counterexample to C6: a poll observing `failed` with a present (but
empty) upstream error message yields the generic reason `Run failed`, not
the reported message — the source combines them with the falsy-sensitive
`||`, not with a presence test. -/
theorem runStatusPolls_runFailed_counterexample :
    (pollsFailEmptyMessage 0).lastErrorMessage = some "" ∧
    runStatusPolls pollsFailEmptyMessage = RunOutcome.runFailed "Run failed" 1 ∧
    ("Run failed" : String) ≠ "" :=
  ⟨by decide, by decide, by decide⟩

/-- C6 (amended): the first poll (say the `N`-th, `N ≤ 76`, every earlier
poll non-terminal) that observes `failed`, `cancelled` or `expired` makes
the executor stop immediately — exactly `N + 1` status calls, no further
polls — with a `RunFailed` error whose reason is the upstream-reported
error message when one is present and non-empty, and the generic
`Run <status>` otherwise. -/
theorem runStatusPolls_runFailed (polls : Nat → RunPoll) (N : Nat)
    (hN : N ≤ 76)
    (hpre : ∀ k, k < N → isTerminalRunStatus ((polls k).status) = false)
    (hterm : (polls N).status = "failed" ∨ (polls N).status = "cancelled" ∨
      (polls N).status = "expired") :
    runStatusPolls polls =
      RunOutcome.runFailed
        (jsOrElse (polls N).lastErrorMessage ("Run " ++ (polls N).status)) (N + 1) :=
  pollRunStatusLoop_failure polls N 100 0 hpre hterm hN (by omega) (by omega)

/-- Witness for C6 (amended): a run cancelled on the first poll with
upstream message `rate_limit_exceeded` yields
`RunFailed("rate_limit_exceeded")` after exactly one status call. -/
theorem runStatusPolls_runFailed_witness :
    runStatusPolls pollsCancelledRateLimit =
      RunOutcome.runFailed "rate_limit_exceeded" 1 :=
  runStatusPolls_runFailed pollsCancelledRateLimit 0 (by omega)
    (fun k hk => absurd hk (Nat.not_lt_zero k))
    (Or.inr (Or.inl rfl))

/-! ## Lemmas about the membership index -/

theorem enumerateVsPages_count (pages : List VsPage) :
    ∀ m, wellFormedPages pages = true → (enumerateVsPages m pages).2 = pages.length := by
  induction pages with
  | nil =>
    intro m h
    simp [wellFormedPages] at h
  | cons page rest ih =>
    intro m h
    cases rest with
    | nil =>
      simp only [wellFormedPages] at h
      simp [enumerateVsPages, h]
    | cons q rest2 =>
      rw [show wellFormedPages (page :: q :: rest2) =
          (page.has_more && !page.data.isEmpty && (lastItemId page.data != "") &&
            wellFormedPages (q :: rest2)) from rfl] at h
      simp only [Bool.and_eq_true] at h
      obtain ⟨⟨⟨h1, h2⟩, h3⟩, h4⟩ := h
      have h3' : lastItemId page.data ≠ "" := by
        intro he
        rw [he] at h3
        simp at h3
      have h2' : page.data ≠ [] := by
        intro he
        rw [he] at h2
        simp at h2
      have hcond : ¬ ((!page.has_more || page.data.isEmpty) = true) := by
        rw [h1]
        simpa [List.isEmpty_iff] using h2'
      simp only [enumerateVsPages]
      rw [if_neg hcond, if_neg h3']
      have hrec := ih (insertVsItems m page.data) h4
      simp only [enumerateVsPages, List.length_cons] at hrec
      simp only [List.length_cons]
      omega

/-- C2: a membership index cached at time `t` (ms) is returned as-is, with
zero upstream listing fetches, for a lookup at `t + 59000` ms, while a
lookup at `t + 61000` ms triggers a full paginated re-enumeration that
fetches every page of the collection's membership listing (at least one
fetch) before answering. -/
theorem vectorStoreFileIdCache_ttl (openaiFileIds : List String) (tMs : Nat)
    (m : List (String × String)) (pages : List VsPage)
    (hwf : wellFormedPages pages = true) :
    getVectorStoreFileIdByOpenAIFileId openaiFileIds (some ⟨tMs, m⟩) (tMs + 59000) pages =
      (m, some ⟨tMs, m⟩, 0) ∧
    (getVectorStoreFileIdByOpenAIFileId openaiFileIds (some ⟨tMs, m⟩) (tMs + 61000)
        pages).2.2 = pages.length ∧
    1 ≤ pages.length := by
  refine ⟨?_, ?_, ?_⟩
  · simp only [getVectorStoreFileIdByOpenAIFileId, ttlMs]
    rw [if_pos (by omega)]
  · simp only [getVectorStoreFileIdByOpenAIFileId, ttlMs]
    rw [if_neg (by omega)]
    simp [enumerateVsPages_count pages [] hwf]
  · cases pages with
    | nil => simp [wellFormedPages] at hwf
    | cons p r => simp

/-- Witness for C2 at a concrete input: one cached entry built at `t = 0`,
one single-page listing. -/
theorem vectorStoreFileIdCache_ttl_witness :
    wellFormedPages [⟨[⟨some "vsf_3", some "file_9"⟩], false⟩] = true ∧
    (getVectorStoreFileIdByOpenAIFileId [] (some ⟨0, [("file_9", "vsf_3")]⟩) (0 + 59000)
        [⟨[⟨some "vsf_3", some "file_9"⟩], false⟩] =
      ([("file_9", "vsf_3")], some ⟨0, [("file_9", "vsf_3")]⟩, 0) ∧
    (getVectorStoreFileIdByOpenAIFileId [] (some ⟨0, [("file_9", "vsf_3")]⟩) (0 + 61000)
        [⟨[⟨some "vsf_3", some "file_9"⟩], false⟩]).2.2 = 1 ∧
    1 ≤ 1) :=
  ⟨by decide,
    vectorStoreFileIdCache_ttl [] 0 [("file_9", "vsf_3")]
      [⟨[⟨some "vsf_3", some "file_9"⟩], false⟩] (by decide)⟩

/-- Counterexample to C3: with a fresh cached index that does not contain
the requested file id `file-9`, the resolver performs zero upstream
fetches and answers from the fresh cache — leaving the id unresolved —
even though the (claimed) re-enumeration of the listing would have mapped
`file-9` to `vsf_3`. -/
theorem membership_resolution_fresh_miss_counterexample :
    (getVectorStoreFileIdByOpenAIFileId ["file-9"] (some ⟨0, []⟩) 1000
        [⟨[⟨some "vsf_3", some "file-9"⟩], false⟩]).2.2 = 0 ∧
    List.lookup "file-9"
        (getVectorStoreFileIdByOpenAIFileId ["file-9"] (some ⟨0, []⟩) 1000
          [⟨[⟨some "vsf_3", some "file-9"⟩], false⟩]).1 = none ∧
    List.lookup "file-9"
        (enumerateVsPages [] [⟨[⟨some "vsf_3", some "file-9"⟩], false⟩]).1 =
      some "vsf_3" :=
  ⟨by decide, by decide, by decide⟩

/-- C3 (amended): re-enumeration is triggered by staleness (or a missing
cache entry) only — a cached index younger than the TTL is returned
unchanged with zero fetches whatever file ids are requested, even ids
absent from it, and a stale cache triggers the full paginated
re-enumeration before answering. -/
theorem membership_resolution_freshness_only (openaiFileIds : List String)
    (tMs nowMs : Nat) (m : List (String × String)) (pages : List VsPage)
    (hfresh : nowMs - tMs < ttlMs) :
    getVectorStoreFileIdByOpenAIFileId openaiFileIds (some ⟨tMs, m⟩) nowMs pages =
      (m, some ⟨tMs, m⟩, 0) ∧
    ∀ nowMs2, ¬ (nowMs2 - tMs < ttlMs) →
      getVectorStoreFileIdByOpenAIFileId openaiFileIds (some ⟨tMs, m⟩) nowMs2 pages =
        ((enumerateVsPages [] pages).1,
          some ⟨nowMs2, (enumerateVsPages [] pages).1⟩, (enumerateVsPages [] pages).2) := by
  constructor
  · simp [getVectorStoreFileIdByOpenAIFileId, hfresh]
  · intro nowMs2 hstale
    simp [getVectorStoreFileIdByOpenAIFileId, hstale]

/-- Witness for C3 (amended) at a concrete input: the fresh cache is
returned as-is although `file-9` is absent from it; the stale lookup
re-enumerates. -/
theorem membership_resolution_freshness_only_witness :
    (1000 - 0 < ttlMs) ∧
    (getVectorStoreFileIdByOpenAIFileId ["file-9"] (some ⟨0, []⟩) 1000
        [⟨[⟨some "vsf_3", some "file-9"⟩], false⟩] = ([], some ⟨0, []⟩, 0)) ∧
    getVectorStoreFileIdByOpenAIFileId ["file-9"] (some ⟨0, []⟩) 61000
        [⟨[⟨some "vsf_3", some "file-9"⟩], false⟩] =
      ((enumerateVsPages [] [⟨[⟨some "vsf_3", some "file-9"⟩], false⟩]).1,
        some ⟨61000, (enumerateVsPages [] [⟨[⟨some "vsf_3", some "file-9"⟩], false⟩]).1⟩,
        (enumerateVsPages [] [⟨[⟨some "vsf_3", some "file-9"⟩], false⟩]).2) := by
  have h := membership_resolution_freshness_only ["file-9"] 0 1000 []
    [⟨[⟨some "vsf_3", some "file-9"⟩], false⟩] (by decide)
  exact ⟨by decide, h.1, h.2 61000 (by decide)⟩

/-! ## Lemmas about the citation-content endpoint -/

theorem findFirstObjectKey_dirOnly (store : List String) (pre : String)
    (h : ∀ k ∈ store, jsEndsWith k "/" = true) :
    findFirstObjectKey store pre = "" := by
  have hnone : ((((store.filter fun k => isPrefixOfStr pre k).take 10).filter
      fun k => k ≠ "").find? fun k => !jsEndsWith k "/") = none := by
    rw [List.find?_eq_none]
    intro x hx
    have hx1 : x ∈ (store.filter fun k => isPrefixOfStr pre k).take 10 :=
      (List.mem_filter.mp hx).1
    have hx2 : x ∈ store.filter fun k => isPrefixOfStr pre k :=
      (List.take_sublist 10 _).subset hx1
    have hx3 : x ∈ store := (List.mem_filter.mp hx2).1
    simp [h x hx3]
  unfold findFirstObjectKey
  rw [hnone]
  rfl

/-- Counterexample to C8: with no mirror bucket configured, the
citation-content endpoint answers with the HTTP 500 configuration error
`S3 mirroring is not configured` — not a NotFound-class (404) error — even
for perfectly valid-looking collection and file ids. -/
theorem fetchCitationSource_unconfigured_counterexample :
    fetchCitationSource none (some "sk-test") "vs_1" "vsf_1" none 0 [] [] =
      ContentResult.serverError "S3 mirroring is not configured" ∧
    ContentResult.isNotFoundError
        (fetchCitationSource none (some "sk-test") "vs_1" "vsf_1" none 0 [] []) = false :=
  ⟨rfl, rfl⟩

/-- C8 (amended): with no mirror bucket configured the endpoint returns the
HTTP 500 configuration error `S3 mirroring is not configured`, whatever the
supplied ids and state; the NotFound-class (404) error is returned when
mirroring is configured but no non-directory object exists under the
resolved prefix. -/
theorem fetchCitationSource_errors (apiKey idParam fileIdParam : String)
    (cached : Option VsCacheEntry) (nowMs : Nat) (pages : List VsPage)
    (store : List String) (config : VectorStoreS3Config)
    (hid : jsTrim idParam ≠ "") (hfid : jsTrim fileIdParam ≠ "")
    (hdir : ∀ k ∈ store, jsEndsWith k "/" = true) :
    (∀ (cached2 : Option VsCacheEntry) (nowMs2 : Nat) (pages2 : List VsPage)
        (store2 : List String) (apiKey2 : Option String) (idParam2 fileIdParam2 : String),
      fetchCitationSource none apiKey2 idParam2 fileIdParam2 cached2 nowMs2 pages2 store2 =
        ContentResult.serverError "S3 mirroring is not configured") ∧
    fetchCitationSource (some config) (some apiKey) idParam fileIdParam cached nowMs
        pages store =
      ContentResult.notFound "Source not found in S3 mirror for this vector store file" := by
  constructor
  · intro cached2 nowMs2 pages2 store2 apiKey2 idParam2 fileIdParam2
    rfl
  · have hcond : ¬ (jsTrim idParam = "" ∨ jsTrim fileIdParam = "") := by
      rintro (hh | hh)
      · exact hid hh
      · exact hfid hh
    have hFind : ∀ pre, findFirstObjectKey store pre = "" := fun pre =>
      findFirstObjectKey_dirOnly store pre hdir
    by_cases hsw : jsStartsWith (jsTrim fileIdParam) "file-"
    · simp [fetchCitationSource, hcond, hsw, hFind]
    · simp [fetchCitationSource, hcond, hsw, hFind]

/-- Witness for C8 (amended) at concrete inputs: a bucket holding only the
collection's directory marker. -/
theorem fetchCitationSource_errors_witness :
    (jsTrim "vs_1" ≠ "") ∧ (jsTrim "vsf_1" ≠ "") ∧
    fetchCitationSource none (some "sk-w") "vs_7" "vsf_7" none 5 [] [] =
      ContentResult.serverError "S3 mirroring is not configured" ∧
    fetchCitationSource (some ⟨"bucket", "vector-stores/", "us-east-1"⟩) (some "sk-w")
        "vs_1" "vsf_1" none 0 [] ["vector-stores/vs_1/"] =
      ContentResult.notFound "Source not found in S3 mirror for this vector store file" := by
  have h := fetchCitationSource_errors "sk-w" "vs_1" "vsf_1" none 0 []
    ["vector-stores/vs_1/"] ⟨"bucket", "vector-stores/", "us-east-1"⟩
    (by decide) (by decide) (by decide)
  exact ⟨by decide, by decide, h.1 none 5 [] [] (some "sk-w") "vs_7" "vsf_7", h.2⟩

/-! ## Lemmas about the S3 key scheme and bulk delete -/

theorem mem_of_mem_trimChars {a : Char} {cs : List Char} (h : a ∈ trimChars cs) : a ∈ cs := by
  simp only [trimChars, List.mem_reverse] at h
  have h1 : a ∈ (cs.dropWhile Char.isWhitespace).reverse :=
    (List.dropWhile_sublist _).subset h
  rw [List.mem_reverse] at h1
  exact (List.dropWhile_sublist _).subset h1

theorem sanitizeS3KeyComponent_no_slash (value : String) :
    '/' ∉ (sanitizeS3KeyComponent value).data := by
  intro hmem
  have h1 : '/' ∈ trimChars
      (((value.data.map fun c => if c = '\\' then '_' else c).map
          fun c => if c = '/' then '_' else c).filter fun c => c ≠ '\x00') := hmem
  have h2 := mem_of_mem_trimChars h1
  have h3 := (List.mem_filter.mp h2).1
  obtain ⟨b, hb, hfb⟩ := List.mem_map.mp h3
  by_cases hb' : b = '/'
  · rw [hb', if_pos rfl] at hfb
    exact absurd hfb (by decide)
  · rw [if_neg hb'] at hfb
    exact hb' hfb

theorem deleteAllObjectsUnder_step_lt (store : List String) (pre : String)
    (hlt : 1000 < (store.filter fun k => isPrefixOfStr pre k).length) :
    ((s3DeleteObjects store
        ((store.filter fun k => isPrefixOfStr pre k).take 1000)).filter
      fun k => isPrefixOfStr pre k).length <
      (store.filter fun k => isPrefixOfStr pre k).length := by
  have hMne : (store.filter fun k => isPrefixOfStr pre k) ≠ [] := by
    intro h
    rw [h] at hlt
    simp at hlt
  have hkeysne : (store.filter fun k => isPrefixOfStr pre k).take 1000 ≠ [] := by
    intro h
    rcases List.take_eq_nil_iff.mp h with h' | h'
    · exact absurd h' (by omega)
    · exact hMne h'
  obtain ⟨x, hx⟩ := List.exists_mem_of_ne_nil _ hkeysne
  have hxM : x ∈ store.filter fun k => isPrefixOfStr pre k :=
    (List.take_sublist 1000 _).subset hx
  simp only [s3DeleteObjects]
  rw [List.filter_comm]
  exact List.length_filter_lt_length_iff_exists.mpr ⟨x, hxM, by simp [hx]⟩

theorem deleteAllObjectsUnder_spec (pre : String) :
    ∀ (n : Nat) (store : List String),
      (store.filter fun k => isPrefixOfStr pre k).length ≤ n →
      deleteAllObjectsUnder store pre = store.filter fun k => !(isPrefixOfStr pre k) := by
  intro n
  induction n with
  | zero =>
    intro store h
    have hM : store.filter (fun k => isPrefixOfStr pre k) = [] := by
      have : (store.filter fun k => isPrefixOfStr pre k).length = 0 := by omega
      exact List.eq_nil_of_length_eq_zero this
    rw [deleteAllObjectsUnder]
    rw [hM]
    simp only [List.length_nil, List.take_nil, List.isEmpty_nil]
    rw [if_pos trivial, if_neg (by omega)]
    symm
    rw [List.filter_eq_self]
    intro a ha
    have : a ∉ store.filter fun k => isPrefixOfStr pre k := by
      rw [hM]
      exact List.not_mem_nil a
    simp only [List.mem_filter, not_and] at this
    simpa using this ha
  | succ n ih =>
    intro store h
    rw [deleteAllObjectsUnder]
    by_cases htr : 1000 < (store.filter fun k => isPrefixOfStr pre k).length
    · rw [if_pos htr]
      have hlt := deleteAllObjectsUnder_step_lt store pre htr
      rw [ih _ (by omega)]
      simp only [s3DeleteObjects, List.filter_filter]
      apply List.filter_congr
      intro x hxs
      by_cases hpx : isPrefixOfStr pre x
      · simp [hpx]
      · have hxnot : x ∉ (store.filter fun k => isPrefixOfStr pre k).take 1000 := by
          intro hxin
          have := (List.mem_filter.mp ((List.take_sublist 1000 _).subset hxin)).2
          exact hpx this
        simp [hpx, hxnot]
    · rw [if_neg htr]
      have hkeys : (store.filter fun k => isPrefixOfStr pre k).take 1000 =
          store.filter fun k => isPrefixOfStr pre k :=
        List.take_of_length_le (by omega)
      by_cases hemp : ((store.filter fun k => isPrefixOfStr pre k).take 1000).isEmpty
      · rw [if_pos hemp]
        have hM : store.filter (fun k => isPrefixOfStr pre k) = [] := by
          rw [hkeys] at hemp
          exact List.isEmpty_iff.mp hemp
        symm
        rw [List.filter_eq_self]
        intro a ha
        have : a ∉ store.filter fun k => isPrefixOfStr pre k := by
          rw [hM]
          exact List.not_mem_nil a
        simp only [List.mem_filter, not_and] at this
        simpa using this ha
      · rw [if_neg hemp]
        simp only [s3DeleteObjects, hkeys]
        apply List.filter_congr
        intro x hxs
        by_cases hpx : isPrefixOfStr pre x
        · have : x ∈ store.filter fun k => isPrefixOfStr pre k :=
            List.mem_filter.mpr ⟨hxs, hpx⟩
          simp [hpx, this]
        · have : x ∉ store.filter fun k => isPrefixOfStr pre k := by
            intro hxin
            exact hpx (List.mem_filter.mp hxin).2
          simp [hpx, this]

/-- Counterexample to C9: for an original filename that sanitizes to the
empty string (here three spaces), the mirrored key ends in the fallback
component `file`, not in `sanitize(filename)` as the claim's formula
states. -/
theorem mirrorObjectKey_counterexample :
    sanitizeS3KeyComponent "   " = "" ∧
    mirrorObjectKey ⟨"bucket", "vector-stores/", "us-east-1"⟩ "vs_1" "vsf_1" "   " =
      "vector-stores/vs_1/files/vsf_1/file" ∧
    claimedMirrorObjectKey ⟨"bucket", "vector-stores/", "us-east-1"⟩ "vs_1" "vsf_1" "   " =
      "vector-stores/vs_1/files/vsf_1/" ∧
    mirrorObjectKey ⟨"bucket", "vector-stores/", "us-east-1"⟩ "vs_1" "vsf_1" "   " ≠
      claimedMirrorObjectKey ⟨"bucket", "vector-stores/", "us-east-1"⟩ "vs_1" "vsf_1" "   " :=
  ⟨by decide, by decide, by decide, by decide⟩

/-- C9 (amended): the mirrored object's key is exactly
`prefix + sanitize(storeId) + '/files/' + sanitize(membershipId) + '/' +
f`, where `f` is `sanitize(filename)` when that is non-empty and the
fallback `file` otherwise, and `sanitize` replaces `/` and `\` by `_`,
drops NUL characters and trims whitespace; the final component is non-empty
and contains no `/`, so no filename can place the object outside the
membership's key prefix, and deleting by a prefix removes exactly the keys
that extend it. -/
theorem mirrorObjectKey_scheme (config : VectorStoreS3Config)
    (vectorStoreId vectorStoreFileId originalname : String)
    (store : List String) (pre : String) :
    mirrorObjectKey config vectorStoreId vectorStoreFileId originalname =
      config.prefixStr ++ sanitizeS3KeyComponent vectorStoreId ++ "/" ++ "files/" ++
        sanitizeS3KeyComponent vectorStoreFileId ++ "/" ++ mirrorFilename originalname ∧
    mirrorFilename originalname ≠ "" ∧
    '/' ∉ (mirrorFilename originalname).data ∧
    deleteAllObjectsUnder store pre = store.filter fun k => !(isPrefixOfStr pre k) := by
  refine ⟨?_, ?_, ?_, ?_⟩
  · simp only [mirrorObjectKey, vectorStoreFilePrefixOf, vectorStoreRootPrefixOf,
      String.append_assoc]
  · unfold mirrorFilename
    split
    · decide
    · rename_i hne
      exact hne
  · unfold mirrorFilename
    split
    · decide
    · exact sanitizeS3KeyComponent_no_slash originalname
  · exact deleteAllObjectsUnder_spec pre _ store (Nat.le_refl _)
